import Mathlib

/- Shallow embedding of the Medical RAG chatbot core (backend/rag_engine.py and
backend/vector_store.py). Machine strings are Lean `String`s, the tiktoken
tokenizer is an explicit `encode : String → List Nat` parameter (with a
matching `decode`), Python `datetime` instants are `Int`s, and the engine
methods become pure functions over explicit state. -/

namespace MedicalRAG

/- Python list slicing helpers. `pySliceLast n l` is Python `l[-n:]`
(note `l[-0:]` is the whole list). `pySlice l a b` is Python `l[a:b]` with
possibly negative `Int` bounds. -/

def pySliceLast (n : Nat) (l : List α) : List α :=
  if n = 0 then l else l.drop (l.length - n)

def pySliceIdx (n : Nat) (i : Int) : Nat :=
  if i < 0 then ((n : Int) + i).toNat else min i.toNat n

def pySlice (l : List α) (a b : Int) : List α :=
  (l.take (pySliceIdx l.length b)).drop (pySliceIdx l.length a)

/-- Python `s[:n]` on a string: the first `n` characters. -/
def pyTakeStr (s : String) (n : Nat) : String :=
  String.mk (s.data.take n)

/- The `{"role": ..., "content": ...}` dicts sent to the chat-completions
API (rag_engine.py builds them in `_generate_response`). -/
structure PromptMessage where
  role : String
  content : String
deriving DecidableEq

/-- Token count of one prompt message content, `len(self.tokenizer.encode(msg["content"]))`. -/
def tokenLen (encode : String → List Nat) (m : PromptMessage) : Nat :=
  (encode m.content).length

/-- Total token count of a message list, `sum(len(tokenizer.encode(msg["content"])) for msg in messages)`. -/
def promptTokens (encode : String → List Nat) (messages : List PromptMessage) : Nat :=
  (messages.map (tokenLen encode)).sum

/-- The `for msg in reversed(context_msgs)` loop of
`_truncate_messages_to_fit_context` (rag_engine.py lines 395-404): walk the
context messages most-recent first, prepend each message whose token cost
still fits into `available`, and stop at the first one that does not
(`break`). The argument list here is already reversed; the returned admitted
messages are in original order. -/
def admitContextRev (tokLen : PromptMessage → Nat) (available : Int) :
    Nat → List PromptMessage → List PromptMessage
  | _, [] => []
  | currentTokens, m :: rest =>
    if (currentTokens : Int) + (tokLen m : Int) ≤ available then
      admitContextRev tokLen available (currentTokens + tokLen m) rest ++ [m]
    else
      []

/-- `MedicalRAGEngine._truncate_messages_to_fit_context` (rag_engine.py lines
373-406).  If the total token count fits in `maxContextTokens` the list is
returned unchanged; otherwise `messages[0]` and `messages[-1]` are kept and
the middle `messages[1:-1]` is greedily refilled from the most recent
backwards into the remaining budget.  The engine instantiates
`maxContextTokens` with `self.max_context_tokens = 8000`. -/
def truncate_messages_to_fit_context (encode : String → List Nat)
    (maxContextTokens : Nat) (messages : List PromptMessage) : List PromptMessage :=
  let totalTokens := promptTokens encode messages
  if totalTokens ≤ maxContextTokens then
    messages
  else
    match messages with
    | [] => []
    | m :: ms =>
      let systemMsg := m
      let contextMsgs := ms.dropLast
      let userMsg := (m :: ms).getLast (List.cons_ne_nil m ms)
      let requiredTokens := tokenLen encode systemMsg + tokenLen encode userMsg
      let availableForContext : Int := (maxContextTokens : Int) - (requiredTokens : Int)
      let truncatedContext :=
        admitContextRev (tokenLen encode) availableForContext 0 contextMsgs.reverse
      [systemMsg] ++ truncatedContext ++ [userMsg]

/-- The engine's fixed context budget, `self.max_context_tokens = 8000`
(rag_engine.py line 98). -/
def max_context_tokens : Nat := 8000

/- A concrete stand-in tokenizer used for closed counterexamples and
witnesses: one token per character. It satisfies the round-trip law of a real
tokenizer (`charDecode (charEncode s) = s`). -/

def charEncode (s : String) : List Nat :=
  s.data.map Char.toNat

def charDecode (l : List Nat) : String :=
  String.mk (l.map Char.ofNat)

/- Concrete over-budget input: a system prompt of 8001 single-character
tokens next to a one-token user query, so that the two required messages
alone exceed the 8000-token budget. -/

def bigSystemMessage : PromptMessage :=
  ⟨"system", String.mk (List.replicate 8001 'a')⟩

def smallUserMessage : PromptMessage :=
  ⟨"user", "q"⟩

lemma tokenLen_bigSystemMessage : tokenLen charEncode bigSystemMessage = 8001 := by
  show ((String.mk (List.replicate 8001 'a')).data.map Char.toNat).length = 8001
  rw [show (String.mk (List.replicate 8001 'a')).data = List.replicate 8001 'a' from rfl,
    List.length_map, List.length_replicate]

lemma tokenLen_smallUserMessage : tokenLen charEncode smallUserMessage = 1 := by
  rfl

lemma getLast_cons_concat {α : Type} (a x : α) (l : List α) (h : a :: (l ++ [x]) ≠ []) :
    (a :: (l ++ [x])).getLast h = x := by
  have h1 : (a :: (l ++ [x])).getLast? = some x := by
    rw [show a :: (l ++ [x]) = (a :: l) ++ [x] from rfl]
    exact List.getLast?_concat _
  rw [List.getLast?_eq_getLast _ h] at h1
  exact Option.some.inj h1

lemma admitContextRev_of_neg (tokLen : PromptMessage → Nat) (available : Int)
    (h : available < 0) (cur : Nat) (l : List PromptMessage) :
    admitContextRev tokLen available cur l = [] := by
  cases l with
  | nil => rfl
  | cons m rest =>
    unfold admitContextRev
    rw [if_neg]
    omega

/-- What the admitted-context loop spends never exceeds the budget it was
given: starting from `cur ≤ available` spent tokens, the admitted messages
cost at most `available - cur` more. -/
lemma admitContextRev_sum (tokLen : PromptMessage → Nat) (available : Int) :
    ∀ (l : List PromptMessage) (cur : Nat), (cur : Int) ≤ available →
      ((cur + ((admitContextRev tokLen available cur l).map tokLen).sum : Nat) : Int) ≤ available := by
  intro l
  induction l with
  | nil =>
    intro cur h
    simpa [admitContextRev] using h
  | cons m rest ih =>
    intro cur h
    unfold admitContextRev
    by_cases hc : (cur : Int) + (tokLen m : Int) ≤ available
    · rw [if_pos hc]
      have hrec := ih (cur + tokLen m) (by push_cast; omega)
      simp only [List.map_append, List.sum_append, List.map_cons, List.sum_cons,
        List.map_nil, List.sum_nil] at hrec ⊢
      push_cast at hrec ⊢
      omega
    · rw [if_neg hc]
      simpa using h

lemma truncate_big_small :
    truncate_messages_to_fit_context charEncode max_context_tokens
      [bigSystemMessage, smallUserMessage] = [bigSystemMessage, smallUserMessage] := by
  unfold truncate_messages_to_fit_context
  rw [if_neg]
  · simp only [List.dropLast, List.getLast, List.reverse_nil]
    rw [admitContextRev_of_neg]
    · rfl
    · rw [tokenLen_bigSystemMessage, tokenLen_smallUserMessage]
      simp [max_context_tokens]
  · simp [promptTokens, tokenLen_bigSystemMessage, tokenLen_smallUserMessage,
      max_context_tokens]

/-- C1 counterexample: with the engine's budget of 8000 tokens, a system
prompt of 8001 tokens and a user query of 1 token together exceed the
budget, yet `_truncate_messages_to_fit_context` does not fail at all — it
returns the pair `[system, user]` unchanged.  No `ContextOverflow` error
exists anywhere in the code. -/
theorem C1_counterexample_no_overflow_error :
    max_context_tokens <
      tokenLen charEncode bigSystemMessage + tokenLen charEncode smallUserMessage ∧
    truncate_messages_to_fit_context charEncode max_context_tokens
      [bigSystemMessage, smallUserMessage] = [bigSystemMessage, smallUserMessage] := by
  constructor
  · rw [tokenLen_bigSystemMessage, tokenLen_smallUserMessage]
    simp [max_context_tokens]
  · exact truncate_big_small

/-- C1 (amended): the context-budgeting step never raises; whenever
`tokens(system) + tokens(query) > max_context_tokens` it instead drops the
entire auxiliary context and returns exactly `[system, user]` (whose token
count still exceeds the budget), independently of how much history or
evidence context is supplied. -/
theorem C1_amended_overflow_drops_all_context (encode : String → List Nat)
    (maxTok : Nat) (sys user : PromptMessage) (ctx : List PromptMessage)
    (h : maxTok < tokenLen encode sys + tokenLen encode user) :
    truncate_messages_to_fit_context encode maxTok (sys :: (ctx ++ [user])) = [sys, user] := by
  unfold truncate_messages_to_fit_context
  rw [if_neg]
  · simp only [List.dropLast_concat, getLast_cons_concat]
    rw [admitContextRev_of_neg]
    · rfl
    · omega
  · have : tokenLen encode sys + tokenLen encode user ≤
        promptTokens encode (sys :: (ctx ++ [user])) := by
      simp only [promptTokens, List.map_cons, List.map_append, List.sum_cons,
        List.sum_append, List.map_nil, List.sum_nil]
      omega
    omega

theorem C1_amended_witness :
    (0 : Nat) < tokenLen charEncode ⟨"system", "a"⟩ + tokenLen charEncode ⟨"user", "b"⟩ ∧
    truncate_messages_to_fit_context charEncode 0
      [⟨"system", "a"⟩, ⟨"user", "b"⟩] = [⟨"system", "a"⟩, ⟨"user", "b"⟩] := by
  refine ⟨by simp [tokenLen, charEncode], ?_⟩
  exact C1_amended_overflow_drops_all_context charEncode 0 ⟨"system", "a"⟩ ⟨"user", "b"⟩ []
    (by simp [tokenLen, charEncode])

/-- C2 counterexample: on the same over-budget pair the returned message
list has total token count 8002 > 8000, violating budgeting safety for
an input whose required messages alone exceed the budget. -/
theorem C2_counterexample_budget_exceeded :
    max_context_tokens <
      promptTokens charEncode
        (truncate_messages_to_fit_context charEncode max_context_tokens
          [bigSystemMessage, smallUserMessage]) := by
  rw [truncate_big_small]
  simp [promptTokens, tokenLen_bigSystemMessage, tokenLen_smallUserMessage,
    max_context_tokens]

/-- C2 (amended): whenever the two required messages fit the budget
(`tokens(system) + tokens(query) ≤ max_context_tokens`), the produced list
has total token count at most the budget and has the shape
`system :: admitted ++ [user]` — the system message first and the user
message last, both verbatim. -/
theorem C2_amended_budget_safety (encode : String → List Nat) (maxTok : Nat)
    (sys user : PromptMessage) (ctx : List PromptMessage)
    (h : tokenLen encode sys + tokenLen encode user ≤ maxTok) :
    ∃ admitted,
      truncate_messages_to_fit_context encode maxTok (sys :: (ctx ++ [user])) =
        sys :: (admitted ++ [user]) ∧
      promptTokens encode
        (truncate_messages_to_fit_context encode maxTok (sys :: (ctx ++ [user]))) ≤ maxTok := by
  by_cases ht : promptTokens encode (sys :: (ctx ++ [user])) ≤ maxTok
  · refine ⟨ctx, ?_, ?_⟩
    · unfold truncate_messages_to_fit_context
      rw [if_pos ht]
    · unfold truncate_messages_to_fit_context
      rw [if_pos ht]
      exact ht
  · have hres : truncate_messages_to_fit_context encode maxTok (sys :: (ctx ++ [user])) =
        sys :: (admitContextRev (tokenLen encode)
          ((maxTok : Int) - ((tokenLen encode sys + tokenLen encode user : Nat) : Int)) 0
          ctx.reverse ++ [user]) := by
      unfold truncate_messages_to_fit_context
      rw [if_neg ht]
      simp only [List.dropLast_concat, getLast_cons_concat]
      rfl
    refine ⟨_, hres, ?_⟩
    rw [hres]
    have hsum := admitContextRev_sum (tokenLen encode)
      ((maxTok : Int) - ((tokenLen encode sys + tokenLen encode user : Nat) : Int))
      ctx.reverse 0 (by push_cast; omega)
    simp only [promptTokens, List.map_cons, List.map_append, List.sum_cons,
      List.sum_append, List.map_nil, List.sum_nil]
    omega

theorem C2_amended_witness :
    tokenLen charEncode ⟨"system", "a"⟩ + tokenLen charEncode ⟨"user", "c"⟩ ≤ 10 ∧
    ∃ admitted,
      truncate_messages_to_fit_context charEncode 10
        (⟨"system", "a"⟩ :: ([⟨"system", "bb"⟩] ++ [⟨"user", "c"⟩])) =
        ⟨"system", "a"⟩ :: (admitted ++ [⟨"user", "c"⟩]) ∧
      promptTokens charEncode
        (truncate_messages_to_fit_context charEncode 10
          (⟨"system", "a"⟩ :: ([⟨"system", "bb"⟩] ++ [⟨"user", "c"⟩]))) ≤ 10 := by
  refine ⟨by simp [tokenLen, charEncode], ?_⟩
  exact C2_amended_budget_safety charEncode 10 ⟨"system", "a"⟩ ⟨"user", "c"⟩
    [⟨"system", "bb"⟩] (by simp [tokenLen, charEncode])

/- Pinecone metadata dicts (vector_store.py): string keys mapping to scalar
values; the code stores both strings ("content", "embedding_model") and
integers ("content_length"). `metaSet` is one `{**d, key: value}` update
(replace in place, else append); `metaGetD` is `d.get(key, default)`. -/

inductive MetaVal where
  | str (s : String)
  | nat (n : Nat)
deriving DecidableEq

abbrev Metadata := List (String × MetaVal)

def metaSet : Metadata → String → MetaVal → Metadata
  | [], k, v => [(k, v)]
  | (k0, v0) :: rest, k, v =>
    if k0 = k then (k0, v) :: rest else (k0, v0) :: metaSet rest k v

def metaGetD (md : Metadata) (key : String) (dflt : MetaVal) : MetaVal :=
  (md.lookup key).getD dflt

/-- A metadata value where the code expects a string (Python is untyped here;
the stored values the code reads back as strings are always strings). -/
def metaValStr : MetaVal → String
  | .str s => s
  | .nat n => toString n

lemma lookup_metaSet_self (k : String) (v : MetaVal) :
    ∀ md : Metadata, (metaSet md k v).lookup k = some v := by
  intro md
  induction md with
  | nil => simp [metaSet]
  | cons p rest ih =>
    obtain ⟨k0, v0⟩ := p
    unfold metaSet
    by_cases h : k0 = k
    · subst h
      rw [if_pos rfl]
      exact List.lookup_cons_self
    · rw [if_neg h, List.lookup_cons,
        show (k == k0) = false from beq_eq_false_iff_ne.mpr (Ne.symm h)]
      exact ih

lemma lookup_metaSet_ne (k k2 : String) (v : MetaVal) (h : k2 ≠ k) :
    ∀ md : Metadata, (metaSet md k2 v).lookup k = md.lookup k := by
  have hbe : (k == k2) = false := beq_eq_false_iff_ne.mpr (Ne.symm h)
  intro md
  induction md with
  | nil => simp [metaSet, List.lookup_cons, hbe]
  | cons p rest ih =>
    obtain ⟨k0, v0⟩ := p
    unfold metaSet
    by_cases h0 : k0 = k2
    · subst h0
      rw [if_pos rfl, List.lookup_cons, List.lookup_cons, hbe]
    · rw [if_neg h0, List.lookup_cons, List.lookup_cons, ih]

/-- `SearchResult` dataclass (vector_store.py lines 27-33). Scores are
`float` in the source; they are modelled as exact rationals. -/
structure SearchResult where
  content : String
  score : ℚ
  metadata : Metadata
  id : String
deriving DecidableEq

/-- One entry of the `sources_data` list `process_query` builds
(rag_engine.py lines 167-175). -/
structure SourceData where
  title : String
  content : String
  score : ℚ
  metadata : Metadata
deriving DecidableEq

/-- `ConversationMessage` dataclass (rag_engine.py lines 23-29), with
`datetime` instants as `Int`. -/
structure ConversationMessage where
  role : String
  content : String
  timestamp : Int
  sources : Option (List SourceData) := none
deriving DecidableEq

/-- `ConversationManager.conversations`: a dict keyed by conversation id;
a missing id reads as the empty history (`dict.get(id, [])`). -/
abbrev Conversations := String → List ConversationMessage

/-- `ConversationManager._cleanup_conversation` (rag_engine.py lines 58-72):
keep the messages with `timestamp > now - context_window`, then the last
`max_history_length` of those (Python `[-n:]`). -/
def cleanup_conversation (now contextWindow : Int) (maxHistoryLength : Nat)
    (messages : List ConversationMessage) : List ConversationMessage :=
  pySliceLast maxHistoryLength
    (messages.filter fun msg => now - contextWindow < msg.timestamp)

/-- `ConversationManager.add_message` (rag_engine.py lines 39-47): append the
message to the history for `conversationId` (creating it if absent), then
prune it with `_cleanup_conversation`. -/
def add_message (now contextWindow : Int) (maxHistoryLength : Nat)
    (convs : Conversations) (conversationId : String)
    (message : ConversationMessage) : Conversations :=
  fun cid =>
    if cid = conversationId then
      cleanup_conversation now contextWindow maxHistoryLength
        (convs conversationId ++ [message])
    else
      convs cid

/-- `ConversationManager.get_conversation` (rag_engine.py lines 49-51). -/
def get_conversation (convs : Conversations) (conversationId : String) :
    List ConversationMessage :=
  convs conversationId

lemma pySliceLast_length_le {α : Type} (n : Nat) (hn : 0 < n) (l : List α) :
    (pySliceLast n l).length ≤ n := by
  unfold pySliceLast
  rw [if_neg (Nat.pos_iff_ne_zero.mp hn), List.length_drop]
  omega

lemma mem_pySliceLast {α : Type} {n : Nat} {l : List α} {a : α}
    (h : a ∈ pySliceLast n l) : a ∈ l := by
  unfold pySliceLast at h
  split at h
  · exact h
  · exact List.mem_of_mem_drop h

/-- C3: after any `add_message` the stored history for the touched
conversation has length at most `max_history_length` and every stored
message has `timestamp > now - context_window`; and in the scenario with
`max_history_length = 10`, a history of 10 fresh messages receiving a fresh
11th drops exactly the oldest, leaving the 10 most recent in original
order.  (The engine configures `max_history_length = 10 > 0`.) -/
theorem C3_eviction_invariants (now contextWindow : Int) (maxHistoryLength : Nat)
    (hmax : 0 < maxHistoryLength) (convs : Conversations) (cid : String)
    (msg : ConversationMessage) :
    ((add_message now contextWindow maxHistoryLength convs cid msg cid).length ≤
        maxHistoryLength ∧
      ∀ m ∈ add_message now contextWindow maxHistoryLength convs cid msg cid,
        now - contextWindow < m.timestamp) ∧
    (maxHistoryLength = 10 → (convs cid).length = 10 →
      (∀ m ∈ convs cid, now - contextWindow < m.timestamp) →
      now - contextWindow < msg.timestamp →
      add_message now contextWindow maxHistoryLength convs cid msg cid =
        (convs cid).drop 1 ++ [msg]) := by
  have hcur : add_message now contextWindow maxHistoryLength convs cid msg cid =
      cleanup_conversation now contextWindow maxHistoryLength (convs cid ++ [msg]) := by
    unfold add_message
    rw [if_pos rfl]
  refine ⟨⟨?_, ?_⟩, ?_⟩
  · rw [hcur]
    exact pySliceLast_length_le _ hmax _
  · intro m hm
    rw [hcur] at hm
    have hmem := mem_pySliceLast hm
    simp only [List.mem_filter, decide_eq_true_eq] at hmem
    exact hmem.2
  · intro h10 hlen hall hfresh
    rw [hcur]
    unfold cleanup_conversation
    have hfilter : (convs cid ++ [msg]).filter
        (fun msg => decide (now - contextWindow < msg.timestamp)) = convs cid ++ [msg] := by
      rw [List.filter_eq_self]
      intro a ha
      rw [decide_eq_true_eq]
      rcases List.mem_append.mp ha with h | h
      · exact hall a h
      · rw [List.mem_singleton.mp h]
        exact hfresh
    rw [hfilter, h10]
    unfold pySliceLast
    rw [if_neg (by omega)]
    rw [List.length_append, hlen]
    simp only [List.length_singleton]
    rw [List.drop_append_of_le_length (by omega)]

theorem C3_witness :
    (0 : Nat) < 10 ∧
    (((add_message 0 24 10 (fun _ => []) "conv-1" ⟨"user", "hi", 0, none⟩ "conv-1").length ≤ 10 ∧
      ∀ m ∈ add_message 0 24 10 (fun _ => []) "conv-1" ⟨"user", "hi", 0, none⟩ "conv-1",
        (0 : Int) - 24 < m.timestamp) ∧
    ((10 : Nat) = 10 → (((fun _ => []) : Conversations) "conv-1").length = 10 →
      (∀ m ∈ (((fun _ => []) : Conversations) "conv-1"), (0 : Int) - 24 < m.timestamp) →
      (0 : Int) - 24 < (⟨"user", "hi", 0, none⟩ : ConversationMessage).timestamp →
      add_message 0 24 10 (fun _ => []) "conv-1" ⟨"user", "hi", 0, none⟩ "conv-1" =
        ((((fun _ => []) : Conversations) "conv-1").drop 1 ++ [⟨"user", "hi", 0, none⟩]))) :=
  ⟨by decide,
    C3_eviction_invariants 0 24 10 (by decide) (fun _ => []) "conv-1" ⟨"user", "hi", 0, none⟩⟩

/- `PineconeVectorStore.chunk_text` (vector_store.py lines 282-309).  The
Python `while start < len(tokens)` loop has no termination guarantee (with
`overlap ≥ chunk_size` the cursor never advances past the end), so the loop
is embedded with explicit fuel: `none` means the fuel ran out, i.e. the
loop had not finished after that many iterations.  `start` is an `Int`
because `start = end - overlap` can go negative in Python. -/

def chunkLoop (chunkSize overlap : Nat) (tokens : List Nat) :
    Nat → Int → List (List Nat) → Option (List (List Nat))
  | 0, _, _ => none
  | fuel + 1, start, chunks =>
    if start < (tokens.length : Int) then
      let stop : Int := min (start + (chunkSize : Int)) (tokens.length : Int)
      let chunkTokens := pySlice tokens start stop
      let chunks := chunks ++ [chunkTokens]
      if (tokens.length : Int) ≤ stop then some chunks
      else chunkLoop chunkSize overlap tokens fuel (stop - (overlap : Int)) chunks
    else
      some chunks

/-- `chunk_text(text, chunk_size, overlap)`: tokenize, run the sliding
window loop, decode each chunk.  The loop makes at most `len(tokens)`
advancing iterations whenever it terminates at all, so
`len(tokens) + 1` fuel is exact: a `none` result means the Python loop
never exits. -/
def chunk_text (encode : String → List Nat) (decode : List Nat → String)
    (text : String) (chunkSize overlap : Nat) : Option (List String) :=
  (chunkLoop chunkSize overlap (encode text) ((encode text).length + 1) 0 []).map
    (fun chunks => chunks.map decode)

lemma chunkLoop_succ (chunkSize overlap : Nat) (tokens : List Nat) (fuel : Nat)
    (start : Int) (chunks : List (List Nat)) :
    chunkLoop chunkSize overlap tokens (fuel + 1) start chunks =
      if start < (tokens.length : Int) then
        let stop : Int := min (start + (chunkSize : Int)) (tokens.length : Int)
        let chunkTokens := pySlice tokens start stop
        let chunks2 := chunks ++ [chunkTokens]
        if (tokens.length : Int) ≤ stop then some chunks2
        else chunkLoop chunkSize overlap tokens fuel (stop - (overlap : Int)) chunks2
      else
        some chunks := rfl

/-- C4: with `chunk_size = overlap = 1` and a two-token input, the
`chunk_text` loop never terminates — no amount of fuel makes it finish —
instead of failing with a `ConfigurationError` (which does not exist in the
code).  The loop re-reads the same window forever because
`start = end - overlap` never advances. -/
theorem C4_overlap_eq_chunk_size_loops_forever :
    (∀ fuel chunks, chunkLoop 1 1 (charEncode "ab") fuel 0 chunks = none) ∧
    chunk_text charEncode charDecode "ab" 1 1 = none := by
  have htoks : charEncode "ab" = [97, 98] := by decide
  have hloop : ∀ fuel chunks, chunkLoop 1 1 [97, 98] fuel 0 chunks = none := by
    intro fuel
    induction fuel with
    | zero => intro chunks; rfl
    | succ n ih =>
      intro chunks
      show chunkLoop 1 1 [97, 98] (n + 1) 0 chunks = none
      unfold chunkLoop
      norm_num
      exact ih _
  constructor
  · rw [htoks]; exact hloop
  · unfold chunk_text
    rw [htoks]
    rw [hloop]
    rfl

/-- C7: on any 250-token input with `chunk_size = 100` and `overlap = 20`,
`chunk_text` terminates with exactly three chunks covering token offsets
[0,100), [80,180) and [160,250), in that order. -/
theorem C7_sliding_window_250 (encode : String → List Nat) (decode : List Nat → String)
    (text : String) (h : (encode text).length = 250) :
    chunk_text encode decode text 100 20 =
      some [decode ((encode text).take 100),
            decode ((((encode text).take 180).drop 80)),
            decode ((encode text).drop 160)] := by
  have htake : (encode text).take 250 = encode text := by
    rw [← h, List.take_length]
  unfold chunk_text
  rw [h, chunkLoop_succ]
  norm_num [pySlice, pySliceIdx, h]
  rw [show (250 : Nat) = 249 + 1 from rfl, chunkLoop_succ]
  norm_num [pySlice, pySliceIdx, h]
  rw [show (249 : Nat) = 248 + 1 from rfl, chunkLoop_succ]
  norm_num [pySlice, pySliceIdx, h]
  rw [show Int.toNat 100 = 100 from rfl, show Int.toNat 80 = 80 from rfl,
    show Int.toNat 180 = 180 from rfl, show Int.toNat 160 = 160 from rfl,
    show Int.toNat 250 = 250 from rfl, htake]
  exact ⟨rfl, rfl, rfl⟩

theorem C7_witness :
    (charEncode (String.mk (List.replicate 250 'a'))).length = 250 ∧
    chunk_text charEncode charDecode (String.mk (List.replicate 250 'a')) 100 20 =
      some [charDecode ((charEncode (String.mk (List.replicate 250 'a'))).take 100),
            charDecode (((charEncode (String.mk (List.replicate 250 'a'))).take 180).drop 80),
            charDecode ((charEncode (String.mk (List.replicate 250 'a'))).drop 160)] := by
  have hlen : (charEncode (String.mk (List.replicate 250 'a'))).length = 250 := by
    show ((String.mk (List.replicate 250 'a')).data.map Char.toNat).length = 250
    rw [show (String.mk (List.replicate 250 'a')).data = List.replicate 250 'a' from rfl,
      List.length_map, List.length_replicate]
  exact ⟨hlen, C7_sliding_window_250 charEncode charDecode _ hlen⟩

/-- C9 counterexample: the single-space input consists only of whitespace,
yet `chunk_text` returns one chunk (the whitespace itself), not zero
chunks: a real tokenizer encodes a nonempty string to a nonempty token
sequence. -/
theorem C9_counterexample_whitespace_one_chunk :
    chunk_text charEncode charDecode " " 1000 200 = some [" "] ∧
    some [" "] ≠ some ([] : List String) := by
  constructor
  · decide
  · decide

/-- C9 (amended): every input whose token encoding is empty — in
particular the empty string — yields zero chunks and no error;
whitespace-only inputs instead tokenize to at least one token and yield a
chunk. -/
theorem C9_amended_empty_encoding_zero_chunks (encode : String → List Nat)
    (decode : List Nat → String) (chunkSize overlap : Nat) (text : String)
    (h : encode text = []) :
    chunk_text encode decode text chunkSize overlap = some [] := by
  unfold chunk_text
  rw [h]
  simp [chunkLoop]

theorem C9_amended_witness :
    charEncode "" = [] ∧
    chunk_text charEncode charDecode "" 1000 200 = some [] :=
  ⟨rfl, C9_amended_empty_encoding_zero_chunks charEncode charDecode 1000 200 "" rfl⟩

/- `PineconeVectorStore.similarity_search` (vector_store.py lines 168-225).
The Pinecone backend call `self.index.query(top_k=k, ...)` is external; its
response is the `matches` parameter here.  The code's own work is the
result-processing loop: keep each match with `score >= score_threshold`,
in response order, building a `SearchResult` whose content is
`match.metadata.get("content", "")`. -/

structure QueryMatch where
  score : ℚ
  metadata : Metadata
  id : String
deriving DecidableEq

def searchResultOfMatch (m : QueryMatch) : SearchResult :=
  { content := metaValStr (metaGetD m.metadata "content" (.str ""))
    score := m.score
    metadata := m.metadata
    id := m.id }

def similarity_search_results (scoreThreshold : ℚ) (backendMatches : List QueryMatch) :
    List SearchResult :=
  (backendMatches.filter fun m => scoreThreshold ≤ m.score).map searchResultOfMatch

/- The backend hits of the spec scenario: scores 0.9, 0.75, 0.5. -/

def hit090 : QueryMatch := ⟨9/10, [("content", .str "doc A")], "id-a"⟩

def hit075 : QueryMatch := ⟨3/4, [("content", .str "doc B")], "id-b"⟩

def hit050 : QueryMatch := ⟨1/2, [("content", .str "doc C")], "id-c"⟩

/-- C8: provided the backend honours its contract (at most `k` matches,
ordered by descending score), the processed result is at most `k` hits,
each with score at least the threshold, still in descending score order;
and on backend scores [0.9, 0.75, 0.5] with threshold 0.7 the result is
exactly the two hits scoring 0.9 and 0.75. -/
theorem C8_similarity_search_filter (k : Nat) (scoreThreshold : ℚ)
    (backendMatches : List QueryMatch) (hk : backendMatches.length ≤ k)
    (hsorted : backendMatches.Pairwise fun a b => b.score ≤ a.score) :
    ((similarity_search_results scoreThreshold backendMatches).length ≤ k ∧
      (∀ r ∈ similarity_search_results scoreThreshold backendMatches,
        scoreThreshold ≤ r.score) ∧
      (similarity_search_results scoreThreshold backendMatches).Pairwise
        fun a b => b.score ≤ a.score) ∧
    similarity_search_results (7/10) [hit090, hit075, hit050] =
      [searchResultOfMatch hit090, searchResultOfMatch hit075] := by
  refine ⟨⟨?_, ?_, ?_⟩, ?_⟩
  · calc (similarity_search_results scoreThreshold backendMatches).length
        = (backendMatches.filter fun m => scoreThreshold ≤ m.score).length := by
          rw [similarity_search_results, List.length_map]
      _ ≤ backendMatches.length := List.length_filter_le _ _
      _ ≤ k := hk
  · intro r hr
    rw [similarity_search_results] at hr
    obtain ⟨m, hm, rfl⟩ := List.mem_map.mp hr
    have := (List.mem_filter.mp hm).2
    rw [decide_eq_true_eq] at this
    exact this
  · rw [similarity_search_results]
    exact (hsorted.filter _).map searchResultOfMatch fun a b hab => hab
  · have h1 : (decide ((7 : ℚ)/10 ≤ hit090.score)) = true := by
      rw [decide_eq_true_eq]; norm_num [hit090]
    have h2 : (decide ((7 : ℚ)/10 ≤ hit075.score)) = true := by
      rw [decide_eq_true_eq]; norm_num [hit075]
    have h3 : (decide ((7 : ℚ)/10 ≤ hit050.score)) = false := by
      rw [decide_eq_false_iff_not]; norm_num [hit050]
    simp [similarity_search_results, List.filter_cons, h1, h2, h3]

theorem C8_witness :
    ([hit090, hit075, hit050].length ≤ 3 ∧
      [hit090, hit075, hit050].Pairwise (fun a b => b.score ≤ a.score)) ∧
    (((similarity_search_results (7/10) [hit090, hit075, hit050]).length ≤ 3 ∧
      (∀ r ∈ similarity_search_results (7/10) [hit090, hit075, hit050],
        (7/10 : ℚ) ≤ r.score) ∧
      (similarity_search_results (7/10) [hit090, hit075, hit050]).Pairwise
        fun a b => b.score ≤ a.score) ∧
    similarity_search_results (7/10) [hit090, hit075, hit050] =
      [searchResultOfMatch hit090, searchResultOfMatch hit075]) :=
  ⟨⟨by simp, by norm_num [List.pairwise_cons, hit090, hit075, hit050]⟩,
    C8_similarity_search_filter 3 (7/10) [hit090, hit075, hit050] (by simp)
      (by norm_num [List.pairwise_cons, hit090, hit075, hit050])⟩

/- `PineconeVectorStore.add_documents` (vector_store.py lines 123-166):
for each document the upserted vector's metadata is
`{**doc.metadata, "content": doc.content[:1000],
"content_length": len(doc.content), "embedding_model": self.embedding_model}`.
The Pinecone index stores that metadata verbatim and returns it on a later
query, so the match for this vector carries `upsert_metadata` as metadata. -/

structure Document where
  content : String
  metadata : Metadata
  id : Option String := none

def upsert_metadata (embeddingModel : String) (doc : Document) : Metadata :=
  metaSet
    (metaSet (metaSet doc.metadata "content" (.str (pyTakeStr doc.content 1000)))
      "content_length" (.nat doc.content.length))
    "embedding_model" (.str embeddingModel)

/-- C10: the upsert-then-query round trip truncates content to its first
1000 characters: a SearchResult later built from this vector's stored
metadata has content exactly `doc.content[:1000]`, which is not the
original content whenever that exceeds 1000 characters. -/
theorem C10_roundtrip_truncates_content (embeddingModel : String) (doc : Document)
    (score : ℚ) (vectorId : String) (h : 1000 < doc.content.length) :
    (searchResultOfMatch ⟨score, upsert_metadata embeddingModel doc, vectorId⟩).content =
      pyTakeStr doc.content 1000 ∧
    (searchResultOfMatch ⟨score, upsert_metadata embeddingModel doc, vectorId⟩).content ≠
      doc.content := by
  have hlook : (upsert_metadata embeddingModel doc).lookup "content" =
      some (.str (pyTakeStr doc.content 1000)) := by
    unfold upsert_metadata
    rw [lookup_metaSet_ne _ _ _ (by decide), lookup_metaSet_ne _ _ _ (by decide),
      lookup_metaSet_self]
  have hcontent :
      (searchResultOfMatch ⟨score, upsert_metadata embeddingModel doc, vectorId⟩).content =
        pyTakeStr doc.content 1000 := by
    show metaValStr (metaGetD (upsert_metadata embeddingModel doc) "content" (.str "")) = _
    rw [metaGetD, hlook, Option.getD_some]
    rfl
  refine ⟨hcontent, ?_⟩
  rw [hcontent]
  intro heq
  have hlen : (pyTakeStr doc.content 1000).length = 1000 := by
    show (doc.content.data.take 1000).length = 1000
    rw [List.length_take]
    have hdata : doc.content.length = doc.content.data.length := rfl
    omega
  have := congrArg String.length heq
  rw [hlen] at this
  omega

theorem C10_witness :
    1000 < (String.mk (List.replicate 1001 'a')).length ∧
    ((searchResultOfMatch
        ⟨1/2, upsert_metadata "text-embedding-ada-002"
          ⟨String.mk (List.replicate 1001 'a'), [], none⟩, "doc-long"⟩).content =
      pyTakeStr (String.mk (List.replicate 1001 'a')) 1000 ∧
    (searchResultOfMatch
        ⟨1/2, upsert_metadata "text-embedding-ada-002"
          ⟨String.mk (List.replicate 1001 'a'), [], none⟩, "doc-long"⟩).content ≠
      String.mk (List.replicate 1001 'a')) := by
  have hlen : 1000 < (String.mk (List.replicate 1001 'a')).length := by
    show 1000 < (List.replicate 1001 'a').length
    rw [List.length_replicate]
    omega
  exact ⟨hlen, C10_roundtrip_truncates_content "text-embedding-ada-002"
    ⟨String.mk (List.replicate 1001 'a'), [], none⟩ (1/2) "doc-long" hlen⟩

/- `MedicalRAGEngine` orchestration (rag_engine.py).  The two external
calls — the vector-store similarity search and the OpenAI chat completion —
are oracles passed in as `Except`-valued functions: `.error` is the call
raising. -/

/-- `MedicalRAGEngine._build_system_prompt` (rag_engine.py lines 311-328). -/
def build_system_prompt : String :=
  "You are a knowledgeable medical AI assistant designed to provide accurate, helpful medical information. Your responses should be:\n\n1. **Accurate and Evidence-Based**: Use only the provided medical context and established medical knowledge\n2. **Clear and Accessible**: Explain medical concepts in understandable terms while maintaining accuracy\n3. **Comprehensive**: Provide thorough answers that address the user's question completely\n4. **Source-Aware**: Reference the provided medical sources when applicable\n5. **Safety-Conscious**: Always emphasize the importance of professional medical consultation\n\nGuidelines:\n- Focus on educational information rather than diagnostic advice\n- Acknowledge limitations when information is insufficient\n- Use clear, professional medical terminology with explanations\n- Structure responses logically with clear sections when appropriate\n- Be empathetic and understanding of health concerns\n\nRemember: You are providing educational information to help users understand medical topics, not replacing professional medical advice."

/-- `MedicalRAGEngine._extract_title_from_metadata` (rag_engine.py lines
408-410): `metadata.get("title", metadata.get("source", "Medical Knowledge Base"))`. -/
def extract_title_from_metadata (metadata : Metadata) : String :=
  metaValStr (metaGetD metadata "title"
    (metaGetD metadata "source" (.str "Medical Knowledge Base")))

/-- `MedicalRAGEngine._build_context_from_documents` (rag_engine.py lines
330-340). -/
def build_context_from_documents (documents : List SearchResult) : String :=
  if documents = [] then
    "No specific medical references found for this query."
  else
    String.intercalate "\n" (documents.enum.map fun p =>
      "Source " ++ toString (p.1 + 1) ++ " - " ++
        extract_title_from_metadata p.2.metadata ++ ":\n" ++ p.2.content ++ "\n")

/-- `MedicalRAGEngine._build_user_prompt` (rag_engine.py lines 342-357). -/
def build_user_prompt (query context : String) : String :=
  "Please answer the following medical question using the provided medical references and your medical knowledge:\n\nQUESTION: " ++
    query ++
    "\n\nMEDICAL REFERENCES:\n" ++
    context ++
    "\n\nPlease provide a comprehensive, accurate response that:\n1. Directly addresses the user's question\n2. References relevant information from the medical sources when applicable\n3. Explains medical concepts clearly\n4. Maintains a helpful and professional tone\n\nIf the provided references don't contain sufficient information to fully answer the question, please indicate this and provide general medical knowledge while emphasizing the need for professional consultation."

/-- `MedicalRAGEngine._build_conversation_context` (rag_engine.py lines
359-371): roles other than user/assistant are skipped, assistant replies are
abbreviated to 150 characters. -/
def build_conversation_context (messages : List ConversationMessage) : String :=
  String.intercalate "\n" (messages.filterMap fun msg =>
    if msg.role = "user" then
      some ("User asked: " ++ msg.content)
    else if msg.role = "assistant" then
      some ("Assistant replied: " ++
        (if 150 < msg.content.length then pyTakeStr msg.content 150 ++ "..."
         else msg.content))
    else none)

/-- `MedicalRAGEngine._enhance_query_with_context` (rag_engine.py lines
221-247): prepend the last six messages (user questions verbatim, assistant
answers abbreviated to 200 characters) to the retrieval query. -/
def enhance_query_with_context (query : String)
    (conversationHistory : List ConversationMessage) : String :=
  if conversationHistory = [] then
    query
  else
    let recentMessages := pySliceLast 6 conversationHistory
    let contextParts := recentMessages.filterMap fun msg =>
      if msg.role = "user" then
        some ("Previous question: " ++ msg.content)
      else if msg.role = "assistant" then
        some ("Previous answer: " ++
          (if 200 < msg.content.length then pyTakeStr msg.content 200 ++ "..."
           else msg.content))
      else none
    if contextParts ≠ [] then
      "Context from conversation:\n" ++ String.intercalate "\n" contextParts ++
        "\n\nCurrent question: " ++ query
    else
      query

/-- The `_add_safety_disclaimer` suffix (rag_engine.py lines 412-419). -/
def safety_disclaimer : String :=
  "\n\n⚠️ **Medical Disclaimer**: This information is for educational purposes only and should not replace professional medical advice, diagnosis, or treatment. Always consult with qualified healthcare professionals for medical concerns. In case of emergency, contact emergency services immediately."

def add_safety_disclaimer (response : String) : String :=
  response ++ safety_disclaimer

/-- `MedicalRAGEngine._retrieve_relevant_documents` (rag_engine.py lines
202-219): any error from the vector-store similarity search is caught and
degraded to the empty document list. -/
def retrieve_relevant_documents {ρ : Type} (searchOutcome : Except ρ (List SearchResult)) :
    List SearchResult :=
  match searchOutcome with
  | .ok results => results
  | .error _ => []

/-- `MedicalRAGEngine._generate_response` (rag_engine.py lines 249-309):
build the system/user prompts, optionally insert the conversation-context
message at index 1, truncate to the token budget, call the LLM oracle, and
append the safety disclaimer on success.  An `.error` from the oracle is
re-raised unchanged. -/
def generate_response {γ : Type} (llm : List PromptMessage → Except γ String)
    (encode : String → List Nat) (enableSafetyDisclaimer : Bool)
    (originalQuery enhancedQuery : String) (retrievedDocs : List SearchResult)
    (conversationHistory : List ConversationMessage) : Except γ String :=
  let systemPrompt := build_system_prompt
  let context := build_context_from_documents retrievedDocs
  let userPrompt := build_user_prompt originalQuery context
  let messages : List PromptMessage := [⟨"system", systemPrompt⟩, ⟨"user", userPrompt⟩]
  let messages :=
    if conversationHistory ≠ [] then
      let historyContext := build_conversation_context (pySliceLast 4 conversationHistory)
      if historyContext ≠ "" then
        messages.take 1 ++ [⟨"system", "Conversation context:\n" ++ historyContext⟩] ++
          messages.drop 1
      else messages
    else messages
  let messages := truncate_messages_to_fit_context encode max_context_tokens messages
  match llm messages with
  | .error e => .error e
  | .ok generatedResponse =>
    .ok (if enableSafetyDisclaimer then add_safety_disclaimer generatedResponse
         else generatedResponse)

/-- The dictionary `process_query` returns (rag_engine.py lines 187-196),
with its `metadata` sub-dictionary inlined. -/
structure ProcessResult where
  response : String
  sources : List SourceData
  modelUsed : String
  retrievalDocsCount : Nat
  enhancedQuery : String
  conversationLength : Nat
deriving DecidableEq

/-- `MedicalRAGEngine.process_query` (rag_engine.py lines 123-200): read the
history, enhance the query, retrieve (with local degradation), generate; the
two `add_message` commits happen only after a successful generation, and any
generation error is re-raised with the conversation state untouched.  The
returned pair is (outcome, conversation state after the call). -/
def process_query {ρ γ : Type} (retrieve : String → Except ρ (List SearchResult))
    (llm : List PromptMessage → Except γ String) (encode : String → List Nat)
    (model : String) (enableSafetyDisclaimer : Bool)
    (now contextWindow : Int) (maxHistoryLength : Nat)
    (convs : Conversations) (query conversationId : String)
    (includeSources : Bool) : Except γ ProcessResult × Conversations :=
  let conversationHistory := get_conversation convs conversationId
  let enhancedQuery := enhance_query_with_context query conversationHistory
  let retrievedDocs := retrieve_relevant_documents (retrieve enhancedQuery)
  match generate_response llm encode enableSafetyDisclaimer query enhancedQuery
      retrievedDocs conversationHistory with
  | .error e => (.error e, convs)
  | .ok responseText =>
    let convs1 := add_message now contextWindow maxHistoryLength convs conversationId
      ⟨"user", query, now, none⟩
    let sourcesData :=
      if includeSources then
        retrievedDocs.map fun doc =>
          ⟨extract_title_from_metadata doc.metadata, doc.content, doc.score, doc.metadata⟩
      else []
    let convs2 := add_message now contextWindow maxHistoryLength convs1 conversationId
      ⟨"assistant", responseText, now, some sourcesData⟩
    (.ok ⟨responseText, sourcesData, model, retrievedDocs.length, enhancedQuery,
      conversationHistory.length⟩, convs2)

/-- C5: if the external generation call fails, `process_query` propagates
exactly that failure and the conversation state is returned unchanged — no
user message and no assistant message of the failed turn is committed. -/
theorem C5_failed_generation_leaves_history_unchanged {ρ γ : Type}
    (retrieve : String → Except ρ (List SearchResult))
    (llm : List PromptMessage → Except γ String) (e : γ)
    (hllm : ∀ msgs, llm msgs = .error e)
    (encode : String → List Nat) (model : String) (enableSafetyDisclaimer : Bool)
    (now contextWindow : Int) (maxHistoryLength : Nat) (convs : Conversations)
    (query conversationId : String) (includeSources : Bool) :
    process_query retrieve llm encode model enableSafetyDisclaimer now contextWindow
      maxHistoryLength convs query conversationId includeSources = (.error e, convs) := by
  simp only [process_query, generate_response, hllm]

theorem C5_witness :
    (∀ msgs : List PromptMessage, (fun _ : List PromptMessage => (.error () : Except Unit String)) msgs = .error ()) ∧
    process_query (fun _ => (.ok [] : Except Unit (List SearchResult)))
      (fun _ => (.error () : Except Unit String)) charEncode
      "gpt-4-1106-preview" true 0 24 10 (fun _ => []) "what is diabetes" "conv-1" true =
      (.error (), fun _ => []) :=
  ⟨fun _ => rfl,
    C5_failed_generation_leaves_history_unchanged
      (fun _ => (.ok [] : Except Unit (List SearchResult)))
      (fun _ => (.error () : Except Unit String)) () (fun _ => rfl) charEncode
      "gpt-4-1106-preview" true 0 24 10 (fun _ => []) "what is diabetes" "conv-1" true⟩

/-- C6: if the vector-index similarity query raises during retrieval while
generation succeeds, `process_query` still completes successfully and the
result carries `sources = []` — the retrieval failure is recovered locally
and never fails the turn. -/
theorem C6_retrieval_failure_degrades_to_empty_sources {ρ γ : Type}
    (retrieve : String → Except ρ (List SearchResult))
    (llm : List PromptMessage → Except γ String) (re : ρ) (answer : String)
    (hret : ∀ q, retrieve q = .error re) (hllm : ∀ msgs, llm msgs = .ok answer)
    (encode : String → List Nat) (model : String) (enableSafetyDisclaimer : Bool)
    (now contextWindow : Int) (maxHistoryLength : Nat) (convs : Conversations)
    (query conversationId : String) (includeSources : Bool) :
    ∃ r : ProcessResult,
      (process_query retrieve llm encode model enableSafetyDisclaimer now contextWindow
        maxHistoryLength convs query conversationId includeSources).1 = .ok r ∧
      r.sources = [] := by
  simp only [process_query, generate_response, hret, hllm,
    retrieve_relevant_documents]
  refine ⟨_, rfl, ?_⟩
  cases includeSources <;> rfl

theorem C6_witness :
    ((∀ q : String, (fun _ : String => (.error () : Except Unit (List SearchResult))) q = .error ()) ∧
      (∀ msgs : List PromptMessage,
        (fun _ : List PromptMessage => (.ok "general medical answer" : Except Unit String)) msgs =
          .ok "general medical answer")) ∧
    ∃ r : ProcessResult,
      (process_query (fun _ => (.error () : Except Unit (List SearchResult)))
        (fun _ => (.ok "general medical answer" : Except Unit String)) charEncode
        "gpt-4-1106-preview" true 0 24 10 (fun _ => []) "what is diabetes" "conv-1" true).1 =
        .ok r ∧ r.sources = [] :=
  ⟨⟨fun _ => rfl, fun _ => rfl⟩,
    C6_retrieval_failure_degrades_to_empty_sources
      (fun _ => (.error () : Except Unit (List SearchResult)))
      (fun _ => (.ok "general medical answer" : Except Unit String)) () "general medical answer"
      (fun _ => rfl) (fun _ => rfl) charEncode "gpt-4-1106-preview" true 0 24 10
      (fun _ => []) "what is diabetes" "conv-1" true⟩

end MedicalRAG
